import Mathlib

/-!
Verification development for the `app.py` retrieval-augmented-generation
pipeline (Streamlit + Pinecone + OpenAI).

Python strings are embedded as `List Char`; the relevant pieces of the
Python standard library (`textwrap.dedent`, `str.strip`, `str.join`,
`dict.get`, `int(...)`) are embedded faithfully below.  The module-level
configuration, the `ask` orchestration function and the `main` submit
handler are embedded as pure functions over explicit stores and provider
oracles, with an event trace recording every outbound provider call.
-/

/-- Python strings, embedded as lists of characters. -/
abbrev Str := List Char

/-- Conversion from Lean string literals into the embedding. -/
def str (s : String) : Str := s.data

/-- The horizontal whitespace recognised by `textwrap.dedent`
(regexes `[ \t]` in the CPython source). -/
def isWS (c : Char) : Bool := c = ' ' || c = '\t'

/-- Whitespace recognised by Python `str.strip()` (ASCII fragment;
the questions and answers handled by the theorems below are ASCII). -/
def isPyWS (c : Char) : Bool :=
  c = ' ' || c = '\t' || c = '\n' || c = '\r' || c = '\x0b' || c = '\x0c'

/-- Python `s.strip()`: remove leading and trailing whitespace. -/
def pyStrip (s : Str) : Str :=
  ((s.dropWhile isPyWS).reverse.dropWhile isPyWS).reverse

/-- Python `text.split("\n")` seen through the multiline regexes of
`textwrap.dedent`: the list of lines of a text.  Never empty; the empty
text has the single line `[]`. -/
def splitLines : Str → List Str
  | [] => [[]]
  | c :: rest =>
    match splitLines rest with
    | line :: lines =>
      if c = '\n' then [] :: line :: lines else (c :: line) :: lines
    | [] => [[]]

/-- Inverse of `splitLines`: interleave newline characters. -/
def joinLines : List Str → Str
  | [] => []
  | [l] => l
  | l :: ls => l ++ '\n' :: joinLines ls

/-- How the line lists of two concatenated texts combine: the last line
of the first text merges with the first line of the second. -/
def glue : List Str → List Str → List Str
  | [a], b :: bs => (a ++ b) :: bs
  | a :: as, bs => a :: glue as bs
  | [], bs => bs

/-- The `[ \t]*` leading-whitespace prefix of a line. -/
def indentOf (l : Str) : Str := l.takeWhile isWS

/-- A line matched by the textwrap regex `_leading_whitespace_re`: it holds a
character that is not horizontal whitespace. -/
def hasContent (l : Str) : Bool := l.any (fun c => !(isWS c))

/-- A line matched by the textwrap regex `_whitespace_only_re = ^[ \t]+$`:
non-empty and all horizontal whitespace. -/
def isWSOnly (l : Str) : Bool := !l.isEmpty && l.all isWS

/-- The substitution of `_whitespace_only_re` by the empty string:
whitespace-only lines are normalised to empty lines. -/
def normalizeLines (ls : List Str) : List Str :=
  ls.map (fun l => if isWSOnly l then [] else l)

/-- Longest common prefix of two strings — the net effect of the
margin-merging loop inside `textwrap.dedent`. -/
def lcp : Str → Str → Str
  | a :: as, b :: bs => if a = b then a :: lcp as bs else []
  | _, _ => []

/-- The dedent margin: the longest common prefix of the indents of all
lines that hold non-whitespace content (`None`, encoded as `[]`, when no
line does — in both cases nothing is removed). -/
def marginOf (ls : List Str) : Str :=
  match (ls.filter hasContent).map indentOf with
  | [] => []
  | i :: is => is.foldl lcp i

/-- The multiline substitution of a leading margin by the empty
string, on a single line. -/
def dropMargin (m l : Str) : Str :=
  if m.isPrefixOf l then l.drop m.length else l

/-- `textwrap.dedent` on the line list of a text. -/
def dedentLines (ls : List Str) : List Str :=
  (normalizeLines ls).map (dropMargin (marginOf (normalizeLines ls)))

/-- Python `textwrap.dedent` (CPython `Lib/textwrap.py`): normalise
whitespace-only lines to empty, compute the margin, strip it. -/
def dedent (s : Str) : Str := joinLines (dedentLines (splitLines s))

/-- The f-string template text before `{context_text}` (app.py lines
54-60): a leading newline, three instruction lines and the
`### Context` header, each indented eight spaces. -/
def tmplPre : Str :=
  str "\n        You are Pipe\u2011Spec Assistant.\n        Answer the user\u0027s question **only** with information in the context.\n        Try to give the best answer possible. If you really don\u0027t know say you don\u0027t know, but still try to provide some value.\n\n        ### Context\n        "

/-- The f-string template text between `{context_text}` and
`{question}` (app.py lines 60-63). -/
def tmplMid : Str := str "\n\n        ### Question\n        "

/-- The f-string template text after `{question}` (app.py lines
63-66), ending in the four spaces before the closing quotes. -/
def tmplSuf : Str := str "\n\n        ### Answer\n    "

/-- The interpolated f-string of app.py lines 54-66, before
`textwrap.dedent` is applied. -/
def rawPrompt (ctx q : Str) : Str := tmplPre ++ ctx ++ tmplMid ++ q ++ tmplSuf

/-- The prompt handed to the chat completion call: `textwrap.dedent`
applied to the interpolated template (app.py line 54). -/
def promptOf (ctx q : Str) : Str := dedent (rawPrompt ctx q)

/-- The fixed separator joining retrieved chunks (app.py line 52). -/
def sep : Str := str "\n\n---\n\n"

/-- A retrieved match from the vector search: an identifier, a score
slot and a metadata mapping.  Scores and identifiers are never read by
app.py, so only the metadata mapping is carried. -/
structure MatchRec where
  metadata : List (Str × Str)
deriving DecidableEq

/-- Python `m.metadata.get(k, d)`: the value stored under the first
occurrence of the key, else the default. -/
def metaGet (md : List (Str × Str)) (k d : Str) : Str :=
  match md.find? (fun p => decide (p.1 = k)) with
  | some p => p.2
  | none => d

/-- App.py line 51: `[m.metadata.get("text", "") for m in res.matches]`. -/
def contextChunks (ms : List MatchRec) : List Str :=
  ms.map (fun m => metaGet m.metadata (str "text") [])

/-- App.py line 52: the context block, the chunks joined with `sep`. -/
def contextText (ms : List MatchRec) : Str :=
  List.intercalate sep (contextChunks ms)

/-- One datum of an embeddings response; `.embedding` is the vector. -/
structure EmbedDatum (V : Type) where
  embedding : V

/-- An embeddings response: `.data` is a list of data. -/
structure EmbedResponse (V : Type) where
  data : List (EmbedDatum V)

/-- A vector query response: `.matches` is the ranked match list. -/
structure QueryResponse where
  «matches» : List MatchRec

/-- A chat message: `.role` and `.content`. -/
structure ChatMessage where
  role : Str
  content : Str

/-- One choice of a chat completion response. -/
structure ChatChoice where
  message : ChatMessage

/-- A chat completion response: `.choices`. -/
structure ChatResponse where
  choices : List ChatChoice

/-- The three external provider endpoints used by app.py, as oracles:
`create` on `client.embeddings`, `query` on `index`, and `create` on
`client.chat.completions`.  Each may fail with an error message, the
Python exception text. -/
structure Providers (V : Type) where
  embed : Str → Str → Except Str (EmbedResponse V)
  query : V → Int → Str → Bool → Except Str QueryResponse
  chat : Str → List (Str × Str) → Int → Except Str ChatResponse

/-- The exceptions that can escape `ask`: a provider exception, or the
IndexError raised by subscripting an empty `.data` or `.choices`. -/
inductive PyErr where
  | provider (msg : Str)
  | indexError
deriving DecidableEq

/-- The Python text of an exception, as interpolated by f-strings. -/
def renderErr : PyErr → Str
  | .provider msg => msg
  | .indexError => str "list index out of range"

/-- The module-level configuration record of app.py lines 11-16. -/
structure Config where
  PINECONE_API_KEY : Str
  OPENAI_API_KEY : Str
  INDEX_NAME : Str
  NAMESPACE : Str
  EMBED_MODEL : Str
  TOP_K : Int
deriving DecidableEq

/-- One outbound provider call, with its full argument list. -/
inductive Event (V : Type) where
  | embedCall (model : Str) (input : Str) : Event V
  | searchCall (vector : V) (topK : Int) (nspace : Str)
      (includeMetadata : Bool) : Event V
  | genCall (model : Str) (messages : List (Str × Str))
      (temperature : Int) : Event V

/-- App.py lines 33-75, the `ask` helper: embed the question, query
the index, build the context and prompt, call the chat model, return
the stripped answer.  The second component is the trace of outbound
provider calls, in order, including the failed one when a step raises. -/
def ask {V : Type} (cfg : Config) (P : Providers V) (question : Str) :
    Except PyErr Str × List (Event V) :=
  let e1 : Event V := .embedCall cfg.EMBED_MODEL question
  match P.embed cfg.EMBED_MODEL question with
  | .error msg => (.error (.provider msg), [e1])
  | .ok er =>
    match er.data with
    | [] => (.error .indexError, [e1])
    | d :: _ =>
      let e2 : Event V := .searchCall d.embedding cfg.TOP_K cfg.NAMESPACE true
      match P.query d.embedding cfg.TOP_K cfg.NAMESPACE true with
      | .error msg => (.error (.provider msg), [e1, e2])
      | .ok res =>
        let prompt := promptOf (contextText res.«matches») question
        let e3 : Event V := .genCall (str "gpt-4o") [(str "user", prompt)] 0
        match P.chat (str "gpt-4o") [(str "user", prompt)] 0 with
        | .error msg => (.error (.provider msg), [e1, e2, e3])
        | .ok cr =>
          match cr.choices with
          | [] => (.error .indexError, [e1, e2, e3])
          | c :: _ => (.ok (pyStrip c.message.content), [e1, e2, e3])

/-- A string-keyed lookup store: the Streamlit secret store
`st.secrets` or the process environment `os.environ`. -/
def storeGet (store : List (Str × Str)) (k : Str) : Option Str :=
  match store.find? (fun p => decide (p.1 = k)) with
  | some p => some p.2
  | none => none

/-- Python `st.secrets.get(k, fb)` composed over `os.getenv(k)`:
the secret value when present, else the environment value when
present, else nothing (the Python `None`). -/
def resolveKey (sec env : List (Str × Str)) (k : Str) : Option Str :=
  match storeGet sec k with
  | some v => some v
  | none => storeGet env k

/-- Python `st.secrets.get(k, os.getenv(k, d))`: the secret value when
present, else the environment value when present, else the default. -/
def resolveKeyD (sec env : List (Str × Str)) (k d : Str) : Str :=
  match storeGet sec k with
  | some v => v
  | none =>
    match storeGet env k with
    | some v => v
    | none => d

/-- The numeric value of a non-empty all-digit string. -/
def digitsToNat (ds : Str) : Option Nat :=
  if ds.isEmpty then none
  else if ds.all Char.isDigit then
    some (ds.foldl (fun n c => 10 * n + (c.toNat - 48)) 0)
  else none

/-- Python `int(s)` on a string: surrounding whitespace is allowed, an
optional sign, then decimal digits; anything else raises `ValueError`,
encoded as `none`.  (Digit-group underscores, accepted by CPython, are
not modelled; no configuration value in the theorems below uses them.) -/
def pyInt (s : Str) : Option Int :=
  match pyStrip s with
  | '-' :: rest => (digitsToNat rest).map (fun n => -(n : Int))
  | '+' :: rest => (digitsToNat rest).map (fun n => (n : Int))
  | t => (digitsToNat t).map (fun n => (n : Int))

/-- App.py line 16: `int(st.secrets.get("TOP_K", os.getenv("TOP_K",
20)))`.  When both stores miss, the default is the Python integer `20`
and `int` is the identity on it; otherwise the string is parsed, and a
parse failure is the `ValueError` escaping module initialisation. -/
def resolveTOP_K (sec env : List (Str × Str)) : Option Int :=
  match storeGet sec (str "TOP_K") with
  | some v => pyInt v
  | none =>
    match storeGet env (str "TOP_K") with
    | some v => pyInt v
    | none => some 20

/-- App.py line 11: the Pinecone credential, secret store first, then
environment, no default. -/
def PINECONE_API_KEY (sec env : List (Str × Str)) : Option Str :=
  resolveKey sec env (str "PINECONE_API_KEY")

/-- App.py line 12: the OpenAI credential. -/
def OPENAI_API_KEY (sec env : List (Str × Str)) : Option Str :=
  resolveKey sec env (str "OPENAI_API_KEY")

/-- App.py line 13: the index name, default "aquestia". -/
def INDEX_NAME (sec env : List (Str × Str)) : Str :=
  resolveKeyD sec env (str "INDEX_NAME") (str "aquestia")

/-- App.py line 14: the namespace, default "v1". -/
def NAMESPACE (sec env : List (Str × Str)) : Str :=
  resolveKeyD sec env (str "NAMESPACE") (str "v1")

/-- App.py line 15: the embedding model, default "text-embedding-3-large". -/
def EMBED_MODEL (sec env : List (Str × Str)) : Str :=
  resolveKeyD sec env (str "EMBED_MODEL") (str "text-embedding-3-large")

/-- App.py line 16: the resolved and int-coerced TOP_K value. -/
def TOP_K (sec env : List (Str × Str)) : Option Int := resolveTOP_K sec env

/-- Python truthiness of an optional string: `None` and the empty
string are falsy (app.py line 18 `not PINECONE_API_KEY`). -/
def pyTruthy : Option Str → Bool
  | none => false
  | some s => !s.isEmpty

/-- The message of app.py line 19. -/
def missingKeysMsg : Str :=
  str "⚠️  Missing API keys for Pinecone and/or OpenAI. Add them to Streamlit secrets or environment variables and restart the app."

/-- What module initialisation (app.py lines 11-27) can end in:
an uncaught `ValueError` from `int(...)` on line 16, the `st.error`
plus `st.stop` halt of lines 19-20, or a running app with the resolved
configuration and the constructed clients of lines 25-27. -/
inductive StartupOutcome where
  | crashed
  | halted (msg : Str)
  | running (cfg : Config)
deriving DecidableEq

/-- App.py lines 11-27 in order: resolve the six configuration values
(line 16 may raise), halt when a key is missing, else construct the
network clients and run. -/
def startup (sec env : List (Str × Str)) : StartupOutcome :=
  match resolveTOP_K sec env with
  | none => .crashed
  | some k =>
    if !(pyTruthy (PINECONE_API_KEY sec env)) || !(pyTruthy (OPENAI_API_KEY sec env)) then
      .halted missingKeysMsg
    else
      .running ⟨(PINECONE_API_KEY sec env).getD [], (OPENAI_API_KEY sec env).getD [],
        INDEX_NAME sec env, NAMESPACE sec env, EMBED_MODEL sec env, k⟩

/-- The network clients built by app.py lines 25-27, which exist only
when startup reaches the `running` state. -/
def clientsConstructed : StartupOutcome → List Str
  | .running _ => [str "Pinecone", str "Index", str "OpenAI"]
  | _ => []

/-- What one submit interaction of `main` (app.py lines 92-99) shows. -/
inductive UIResult where
  | noAction
  | answered (a : Str)
  | errorShown (msg : Str)
deriving DecidableEq

/-- The banner of app.py line 99: an f-string around the exception. -/
def errBanner (e : PyErr) : Str :=
  str "❌ An error occurred: " ++ renderErr e

/-- App.py lines 92-99: dispatch only when the button was clicked and
the stripped question is truthy; inside the guard, `ask` runs under
`try`, a success is written, any exception becomes an error banner.
The second component is the trace of outbound provider calls. -/
def handleAsk {V : Type} (cfg : Config) (P : Providers V)
    (clicked : Bool) (question : Str) : UIResult × List (Event V) :=
  if clicked && !(pyStrip question).isEmpty then
    match ask cfg P question with
    | (.ok a, tr) => (.answered a, tr)
    | (.error e, tr) => (.errorShown (errBanner e), tr)
  else (.noAction, [])

/-- A sequence of submit interactions against one running app: each
question is handled in turn by the same process. -/
def uiSession {V : Type} (cfg : Config) (P : Providers V)
    (qs : List Str) : List UIResult :=
  qs.map (fun q => (handleAsk cfg P true q).1)

/-- The eight-space indentation of the template body lines. -/
def i8 : Str := str "        "

/-- The four spaces before the closing triple quote. -/
def s4 : Str := str "    "

/-- The first instruction line of the template, without indentation. -/
def hYou : Str := str "You are Pipe\u2011Spec Assistant."

/-- The second instruction line of the template, without indentation. -/
def hIns2 : Str := str "Answer the user\u0027s question **only** with information in the context."

/-- The third instruction line of the template, without indentation. -/
def hIns3 : Str := str "Try to give the best answer possible. If you really don\u0027t know say you don\u0027t know, but still try to provide some value."

/-- The Context header, without indentation. -/
def hCtx : Str := str "### Context"

/-- The Question header, without indentation. -/
def hQ : Str := str "### Question"

/-- The Answer header, without indentation. -/
def hAns : Str := str "### Answer"

/-- A line that starts in column zero with a non-whitespace character. -/
def lineAtColZero (l : Str) : Bool :=
  match l with
  | c :: _ => !(isWS c)
  | [] => false

/-- A sample embedding vector for concrete runs. -/
def okVec : List Int := [1]

/-- Concrete providers that succeed, with an empty search result. -/
def okProviders : Providers (List Int) where
  embed := fun _ _ => Except.ok ⟨[⟨okVec⟩]⟩
  query := fun _ _ _ _ => Except.ok ⟨[]⟩
  chat := fun _ _ _ => Except.ok ⟨[⟨⟨str "assistant", str " I cannot tell from the context. "⟩⟩]⟩

/-- Concrete providers whose embedding endpoint raises. -/
def errProviders : Providers (List Int) where
  embed := fun _ _ => Except.error (str "quota exceeded")
  query := fun _ _ _ _ => Except.ok ⟨[]⟩
  chat := fun _ _ _ => Except.ok ⟨[]⟩

/-- A concrete configuration equal to the all-defaults resolution with
both API keys present. -/
def cfgDefault : Config :=
  ⟨str "pc-key", str "oa-key", str "aquestia", str "v1",
   str "text-embedding-3-large", 20⟩

/-- A match carrying the text alpha. -/
def mA : MatchRec := ⟨[(str "text", str "alpha")]⟩

/-- A match carrying the text beta. -/
def mB : MatchRec := ⟨[(str "text", str "beta")]⟩

set_option maxRecDepth 100000

theorem splitLines_ne_nil (s : Str) : splitLines s ≠ [] := by
  cases s with
  | nil => simp [splitLines]
  | cons c rest =>
    unfold splitLines
    cases splitLines rest with
    | nil => simp
    | cons line lines =>
      by_cases h : c = '\n' <;> simp [h]

theorem exists_splitLines_cons (s : Str) : ∃ l ls, splitLines s = l :: ls := by
  cases h : splitLines s with
  | nil => exact absurd h (splitLines_ne_nil s)
  | cons l ls => exact ⟨l, ls, rfl⟩

theorem glue_cons_of_ne_nil (a : Str) (as bs : List Str) (h : as ≠ []) :
    glue (a :: as) bs = a :: glue as bs := by
  cases as with
  | nil => exact absurd rfl h
  | cons x xs => cases bs <;> rfl

theorem glue_singleton (a b : Str) (bs : List Str) :
    glue [a] (b :: bs) = (a ++ b) :: bs := rfl

theorem glue_nil_head (xs bs : List Str) (h : xs ≠ []) :
    glue xs ([] :: bs) = xs ++ bs := by
  induction xs with
  | nil => exact absurd rfl h
  | cons a as ih =>
    cases as with
    | nil => simp [glue]
    | cons x xs2 =>
      rw [glue_cons_of_ne_nil a (x :: xs2) _ (by simp), ih (by simp)]
      rfl

theorem splitLines_cons_of (c : Char) (s l : Str) (ls : List Str)
    (h : splitLines s = l :: ls) :
    splitLines (c :: s) = if c = '\n' then [] :: l :: ls else (c :: l) :: ls := by
  unfold splitLines
  rw [h]

theorem splitLines_append (x y : Str) :
    splitLines (x ++ y) = glue (splitLines x) (splitLines y) := by
  induction x with
  | nil =>
    obtain ⟨b, bs, hb⟩ := exists_splitLines_cons y
    simp [splitLines, hb, glue]
  | cons c rest ih =>
    obtain ⟨r0, rs, hr⟩ := exists_splitLines_cons rest
    obtain ⟨s0, ss, hs⟩ := exists_splitLines_cons y
    have hxy : splitLines (rest ++ y) = glue (r0 :: rs) (s0 :: ss) := by
      rw [← hr, ← hs]; exact ih
    rw [List.cons_append, splitLines_cons_of c rest r0 rs hr, hs]
    cases rs with
    | nil =>
      rw [splitLines_cons_of c (rest ++ y) (r0 ++ s0) ss (by rw [hxy, glue_singleton])]
      by_cases h : c = '\n'
      · simp only [if_pos h]
        rw [glue_cons_of_ne_nil [] [r0] (s0 :: ss) (by simp), glue_singleton]
      · simp only [if_neg h]
        rw [glue_singleton]
        simp
    | cons a as =>
      have hga : glue (r0 :: a :: as) (s0 :: ss) = r0 :: glue (a :: as) (s0 :: ss) :=
        glue_cons_of_ne_nil r0 (a :: as) (s0 :: ss) (by simp)
      rw [splitLines_cons_of c (rest ++ y) r0 (glue (a :: as) (s0 :: ss)) (by rw [hxy, hga])]
      by_cases h : c = '\n'
      · simp only [if_pos h]
        rw [glue_cons_of_ne_nil [] (r0 :: a :: as) (s0 :: ss) (by simp), hga]
      · simp only [if_neg h]
        rw [glue_cons_of_ne_nil (c :: r0) (a :: as) (s0 :: ss) (by simp)]

theorem joinLines_cons (l : Str) (ls : List Str) (h : ls ≠ []) :
    joinLines (l :: ls) = l ++ '\n' :: joinLines ls := by
  cases ls with
  | nil => exact absurd rfl h
  | cons a as => rfl

theorem joinLines_append (A B : List Str) (hA : A ≠ []) (hB : B ≠ []) :
    joinLines (A ++ B) = joinLines A ++ '\n' :: joinLines B := by
  induction A with
  | nil => exact absurd rfl hA
  | cons a as ih =>
    cases as with
    | nil =>
      rw [List.singleton_append, joinLines_cons a B hB]
      rfl
    | cons x xs =>
      rw [List.cons_append, joinLines_cons a ((x :: xs) ++ B) (by simp),
          ih (by simp), joinLines_cons a (x :: xs) (by simp)]
      simp

theorem infix_joinLines_of_mem (x : Str) (ls : List Str) (h : x ∈ ls) :
    x <:+: joinLines ls := by
  induction ls with
  | nil => simp at h
  | cons l ls2 ih =>
    rcases List.mem_cons.mp h with h1 | h2
    · subst h1
      cases ls2 with
      | nil => exact List.infix_refl x
      | cons a as =>
        rw [joinLines_cons x (a :: as) (by simp)]
        exact (List.prefix_append x ('\n' :: joinLines (a :: as))).isInfix
    · cases ls2 with
      | nil => simp at h2
      | cons a as =>
        rw [joinLines_cons l (a :: as) (by simp)]
        have h3 := ih h2
        have h4 : joinLines (a :: as) <:+ '\n' :: joinLines (a :: as) :=
          List.suffix_cons '\n' (joinLines (a :: as))
        have h5 : '\n' :: joinLines (a :: as) <:+ l ++ '\n' :: joinLines (a :: as) :=
          List.suffix_append l ('\n' :: joinLines (a :: as))
        exact h3.trans ((h4.trans h5).isInfix)

theorem lcp_pre_left (a b : Str) : lcp a b <+: a := by
  induction a generalizing b with
  | nil => cases b <;> simp [lcp]
  | cons x xs ih =>
    cases b with
    | nil => simp [lcp]
    | cons y ys =>
      unfold lcp
      by_cases h : x = y
      · simp only [if_pos h]
        obtain ⟨t, ht⟩ := ih ys
        exact ⟨t, by rw [List.cons_append, ht]⟩
      · simp [if_neg h]

theorem lcp_pre_right (a b : Str) : lcp a b <+: b := by
  induction a generalizing b with
  | nil => cases b <;> simp [lcp]
  | cons x xs ih =>
    cases b with
    | nil => simp [lcp]
    | cons y ys =>
      unfold lcp
      by_cases h : x = y
      · simp only [if_pos h]
        obtain ⟨t, ht⟩ := ih ys
        exact ⟨t, by rw [List.cons_append, ht, h]⟩
      · simp [if_neg h]

theorem foldl_lcp_pre_init (l : List Str) (a : Str) : l.foldl lcp a <+: a := by
  induction l generalizing a with
  | nil => simp
  | cons x xs ih =>
    rw [List.foldl_cons]
    exact (ih (lcp a x)).trans (lcp_pre_left a x)

theorem foldl_lcp_pre_mem (l : List Str) (a x : Str) (h : x ∈ l) :
    l.foldl lcp a <+: x := by
  induction l generalizing a with
  | nil => simp at h
  | cons y ys ih =>
    rw [List.foldl_cons]
    rcases List.mem_cons.mp h with h1 | h2
    · subst h1
      exact (foldl_lcp_pre_init ys (lcp a x)).trans (lcp_pre_right a x)
    · exact ih (lcp a y) h2

theorem marginOf_pre_indent (ls : List Str) (l : Str) (hmem : l ∈ ls)
    (hc : hasContent l = true) : marginOf ls <+: indentOf l := by
  unfold marginOf
  have h1 : l ∈ ls.filter hasContent := List.mem_filter.mpr ⟨hmem, hc⟩
  have h2 : indentOf l ∈ (ls.filter hasContent).map indentOf :=
    List.mem_map_of_mem indentOf h1
  cases hml : (ls.filter hasContent).map indentOf with
  | nil => rw [hml] at h2; simp at h2
  | cons i is =>
    rw [hml] at h2
    dsimp only
    rcases List.mem_cons.mp h2 with h3 | h4
    · rw [← h3]
      exact foldl_lcp_pre_init is (indentOf l)
    · exact foldl_lcp_pre_mem is i (indentOf l) h4

theorem dropMargin_zero (m : Str) : dropMargin m [] = [] := by
  unfold dropMargin
  split <;> simp

theorem dropMargin_append (m t : Str) : dropMargin m (m ++ t) = t := by
  unfold dropMargin
  rw [if_pos (List.isPrefixOf_iff_prefix.mpr (List.prefix_append m t)), List.drop_left]

theorem dropMargin_of_pre (m i t rest : Str) (h : m ++ t = i) :
    dropMargin m (i ++ rest) = t ++ rest := by
  rw [← h, List.append_assoc, dropMargin_append]

theorem dropMargin_empty (l : Str) : dropMargin [] l = l := by
  unfold dropMargin
  rw [if_pos (List.isPrefixOf_iff_prefix.mpr List.nil_prefix)]
  rfl

theorem splitLines_tmplPre :
    splitLines tmplPre =
      [[], i8 ++ hYou, i8 ++ hIns2, i8 ++ hIns3, [], i8 ++ hCtx, i8] := by decide

theorem splitLines_tmplMid :
    splitLines tmplMid = [[], [], i8 ++ hQ, i8] := by decide

theorem splitLines_tmplSuf :
    splitLines tmplSuf = [[], [], i8 ++ hAns, s4] := by decide

theorem splitLines_rawPrompt (ctx q c0 q0 : Str) (cs qs : List Str)
    (hc : splitLines ctx = c0 :: cs) (hq : splitLines q = q0 :: qs) :
    splitLines (rawPrompt ctx q) =
      [] :: (i8 ++ hYou) :: (i8 ++ hIns2) :: (i8 ++ hIns3) :: [] :: (i8 ++ hCtx)
        :: (i8 ++ c0) :: (cs ++ ([] :: (i8 ++ hQ) :: (i8 ++ q0)
        :: (qs ++ ([] :: (i8 ++ hAns) :: s4 :: [])))) := by
  have h1 : splitLines (q ++ tmplSuf)
      = q0 :: (qs ++ ([] :: (i8 ++ hAns) :: s4 :: [])) := by
    rw [splitLines_append, hq, splitLines_tmplSuf,
        glue_nil_head (q0 :: qs) ([] :: (i8 ++ hAns) :: s4 :: []) (by simp)]
    rfl
  have h2 : splitLines (tmplMid ++ (q ++ tmplSuf))
      = [] :: [] :: (i8 ++ hQ) :: (i8 ++ q0)
        :: (qs ++ ([] :: (i8 ++ hAns) :: s4 :: [])) := by
    rw [splitLines_append, splitLines_tmplMid, h1]
    rw [glue_cons_of_ne_nil _ _ _ (by simp), glue_cons_of_ne_nil _ _ _ (by simp),
        glue_cons_of_ne_nil _ _ _ (by simp), glue_singleton]
  have h3 : splitLines (ctx ++ (tmplMid ++ (q ++ tmplSuf)))
      = c0 :: (cs ++ ([] :: (i8 ++ hQ) :: (i8 ++ q0)
        :: (qs ++ ([] :: (i8 ++ hAns) :: s4 :: [])))) := by
    rw [splitLines_append, hc, h2,
        glue_nil_head (c0 :: cs) _ (by simp)]
    rfl
  have h4 : rawPrompt ctx q = tmplPre ++ (ctx ++ (tmplMid ++ (q ++ tmplSuf))) := by
    simp [rawPrompt, List.append_assoc]
  rw [h4, splitLines_append, splitLines_tmplPre, h3]
  rw [glue_cons_of_ne_nil _ _ _ (by simp), glue_cons_of_ne_nil _ _ _ (by simp),
      glue_cons_of_ne_nil _ _ _ (by simp), glue_cons_of_ne_nil _ _ _ (by simp),
      glue_cons_of_ne_nil _ _ _ (by simp), glue_cons_of_ne_nil _ _ _ (by simp),
      glue_singleton]

theorem mem_splitLines_rawPrompt_line (ctx q : Str) :
    (i8 ++ hYou) ∈ splitLines (rawPrompt ctx q) := by
  obtain ⟨c0, cs, hc⟩ := exists_splitLines_cons ctx
  obtain ⟨q0, qs, hq⟩ := exists_splitLines_cons q
  rw [splitLines_rawPrompt ctx q c0 q0 cs qs hc hq]
  simp

theorem mem_normalizeLines_of_mem (l : Str) (ls : List Str) (hmem : l ∈ ls)
    (hws : isWSOnly l = false) : l ∈ normalizeLines ls := by
  have h := List.mem_map_of_mem (fun l => if isWSOnly l then [] else l) hmem
  simpa [normalizeLines, hws] using h

theorem margin_rawPrompt_pre_i8 (ctx q : Str) :
    marginOf (normalizeLines (splitLines (rawPrompt ctx q))) <+: i8 := by
  have hmem : (i8 ++ hYou) ∈ normalizeLines (splitLines (rawPrompt ctx q)) :=
    mem_normalizeLines_of_mem _ _ (mem_splitLines_rawPrompt_line ctx q) (by decide)
  have hpre := marginOf_pre_indent _ _ hmem (by decide)
  rwa [show indentOf (i8 ++ hYou) = i8 from by decide] at hpre

theorem mem_dedentLines_of_mem (l : Str) (ls : List Str) (hmem : l ∈ ls)
    (hws : isWSOnly l = false) :
    dropMargin (marginOf (normalizeLines ls)) l ∈ dedentLines ls := by
  unfold dedentLines
  exact List.mem_map_of_mem (dropMargin (marginOf (normalizeLines ls)))
    (mem_normalizeLines_of_mem l ls hmem hws)

theorem splitLines_no_newline (q : Str) (h : '\n' ∉ q) : splitLines q = [q] := by
  induction q with
  | nil => rfl
  | cons c rest ih =>
    have hc : c ≠ '\n' := fun he => h (he ▸ List.mem_cons_self c rest)
    have hr : splitLines rest = [rest] := ih (fun hm => h (List.mem_cons_of_mem c hm))
    rw [splitLines_cons_of c rest rest [] hr, if_neg (by simpa using hc)]

theorem pyStrip_content (q : Str) (h : pyStrip q ≠ []) :
    ∃ c ∈ q, isPyWS c = false := by
  by_contra hb
  push_neg at hb
  apply h
  unfold pyStrip
  have h1 : q.dropWhile isPyWS = [] :=
    List.dropWhile_eq_nil_iff.mpr (fun c hc => by simpa using hb c hc)
  rw [h1]
  rfl

theorem isPyWS_of_isWS (c : Char) (h : isWS c = true) : isPyWS c = true := by
  unfold isWS at h
  unfold isPyWS
  rcases Bool.or_eq_true_iff.mp h with h1 | h1 <;> simp [h1]

theorem isWS_false_of_isPyWS_false (c : Char) (h : isPyWS c = false) :
    isWS c = false := by
  by_contra hb
  rw [isPyWS_of_isWS c (by revert hb; cases isWS c <;> simp)] at h
  simp at h

theorem isWSOnly_false_of_mem (l : Str) (c : Char) (hc : c ∈ l)
    (hw : isWS c = false) : isWSOnly l = false := by
  unfold isWSOnly
  have ha : l.all isWS = false := List.all_eq_false.mpr ⟨c, hc, by simp [hw]⟩
  simp [ha]

theorem hasContent_of_mem (l : Str) (c : Char) (hc : c ∈ l)
    (hw : isWS c = false) : hasContent l = true := by
  unfold hasContent
  exact List.any_eq_true.mpr ⟨c, hc, by simp [hw]⟩

theorem question_infix_promptOf (ctx q : Str) (hq1 : pyStrip q ≠ [])
    (hq2 : '\n' ∉ q) : q <:+: promptOf ctx q := by
  obtain ⟨c, hcq, hcw⟩ := pyStrip_content q hq1
  have hcw2 : isWS c = false := isWS_false_of_isPyWS_false c hcw
  obtain ⟨c0, cs, hc⟩ := exists_splitLines_cons ctx
  have hline : (i8 ++ q) ∈ splitLines (rawPrompt ctx q) := by
    rw [splitLines_rawPrompt ctx q c0 q cs [] hc (splitLines_no_newline q hq2)]
    simp
  have hws : isWSOnly (i8 ++ q) = false :=
    isWSOnly_false_of_mem _ c (List.mem_append_right i8 hcq) hcw2
  have hmem := mem_dedentLines_of_mem (i8 ++ q) _ hline hws
  obtain ⟨t, ht⟩ := margin_rawPrompt_pre_i8 ctx q
  have hdrop : dropMargin (marginOf (normalizeLines (splitLines (rawPrompt ctx q))))
      (i8 ++ q) = t ++ q := by
    rw [← ht, List.append_assoc, dropMargin_append]
  rw [hdrop] at hmem
  exact ((List.suffix_append t q).isInfix).trans
    (infix_joinLines_of_mem _ _ hmem)

theorem margin_rawPrompt_empty (ctx q l : Str)
    (hl : l ∈ (splitLines ctx).tail ∨ l ∈ (splitLines q).tail)
    (hcz : lineAtColZero l = true) :
    marginOf (normalizeLines (splitLines (rawPrompt ctx q))) = [] := by
  obtain ⟨c, r, hcr⟩ : ∃ c r, l = c :: r := by
    cases l with
    | nil => simp [lineAtColZero] at hcz
    | cons c r => exact ⟨c, r, rfl⟩
  have hcw : isWS c = false := by
    rw [hcr] at hcz
    simpa [lineAtColZero] using hcz
  obtain ⟨c0, cs, hc⟩ := exists_splitLines_cons ctx
  obtain ⟨q0, qs, hq⟩ := exists_splitLines_cons q
  have hline : l ∈ splitLines (rawPrompt ctx q) := by
    rw [splitLines_rawPrompt ctx q c0 q0 cs qs hc hq]
    rw [hc] at hl
    rw [hq] at hl
    simp only [List.tail_cons] at hl
    rcases hl with hl | hl <;> simp [hl]
  have hws : isWSOnly l = false :=
    isWSOnly_false_of_mem l c (hcr ▸ List.mem_cons_self c r) hcw
  have hmem := mem_normalizeLines_of_mem l _ hline hws
  have hpre := marginOf_pre_indent _ l hmem
    (hasContent_of_mem l c (hcr ▸ List.mem_cons_self c r) hcw)
  rw [hcr] at hpre
  rw [show indentOf (c :: r) = [] from by simp [indentOf, List.takeWhile_cons, hcw]] at hpre
  exact List.prefix_nil.mp hpre

theorem template_line_retained (ctx q l : Str)
    (hm : marginOf (normalizeLines (splitLines (rawPrompt ctx q))) = [])
    (hmem : l ∈ splitLines (rawPrompt ctx q)) (hws : isWSOnly l = false) :
    l <:+: promptOf ctx q := by
  have h := mem_dedentLines_of_mem l _ hmem hws
  rw [hm, dropMargin_empty] at h
  exact infix_joinLines_of_mem _ _ h

theorem mem_raw_tmpl_lines (ctx q : Str) :
    (i8 ++ hYou) ∈ splitLines (rawPrompt ctx q)
    ∧ (i8 ++ hIns2) ∈ splitLines (rawPrompt ctx q)
    ∧ (i8 ++ hIns3) ∈ splitLines (rawPrompt ctx q)
    ∧ (i8 ++ hCtx) ∈ splitLines (rawPrompt ctx q)
    ∧ (i8 ++ hQ) ∈ splitLines (rawPrompt ctx q)
    ∧ (i8 ++ hAns) ∈ splitLines (rawPrompt ctx q) := by
  obtain ⟨c0, cs, hc⟩ := exists_splitLines_cons ctx
  obtain ⟨q0, qs, hq⟩ := exists_splitLines_cons q
  rw [splitLines_rawPrompt ctx q c0 q0 cs qs hc hq]
  refine ⟨by simp, by simp, by simp, by simp, ?_, ?_⟩ <;> simp

theorem body_infix_promptOf (ctx q body : Str)
    (hmem : (i8 ++ body) ∈ splitLines (rawPrompt ctx q))
    (hws : isWSOnly (i8 ++ body) = false) :
    body <:+: promptOf ctx q := by
  obtain ⟨t, ht⟩ := margin_rawPrompt_pre_i8 ctx q
  have hmem2 := mem_dedentLines_of_mem _ _ hmem hws
  rw [dropMargin_of_pre _ _ _ _ ht] at hmem2
  exact ((List.suffix_append t body).isInfix).trans
    (infix_joinLines_of_mem _ _ hmem2)

theorem ask_first_event {V : Type} (cfg : Config) (P : Providers V) (q : Str) :
    ∃ tr, (ask cfg P q).2 = Event.embedCall cfg.EMBED_MODEL q :: tr := by
  unfold ask
  cases P.embed cfg.EMBED_MODEL q with
  | error m => exact ⟨[], rfl⟩
  | ok er =>
    dsimp only
    cases er.data with
    | nil => exact ⟨[], rfl⟩
    | cons d ds =>
      dsimp only
      cases P.query d.embedding cfg.TOP_K cfg.NAMESPACE true with
      | error m => exact ⟨_, rfl⟩
      | ok res =>
        dsimp only
        cases P.chat (str "gpt-4o")
            [(str "user", promptOf (contextText res.«matches») q)] 0 with
        | error m => exact ⟨_, rfl⟩
        | ok cr =>
          dsimp only
          cases cr.choices with
          | nil => exact ⟨_, rfl⟩
          | cons c cs2 => exact ⟨_, rfl⟩

theorem map_dropMargin_shape (m t q0 : Str) (qs : List Str) (ht : m ++ t = i8) :
    ([] :: (i8 ++ hYou) :: (i8 ++ hIns2) :: (i8 ++ hIns3) :: [] :: (i8 ++ hCtx)
      :: [] :: [] :: (i8 ++ hQ)
      :: (if isWSOnly (i8 ++ q0) then [] else (i8 ++ q0))
      :: (qs.map (fun l => if isWSOnly l then [] else l)
          ++ ([] :: (i8 ++ hAns) :: [] :: []))).map (dropMargin m)
    = ([] :: (t ++ hYou) :: (t ++ hIns2) :: (t ++ hIns3) :: [] :: [])
      ++ ((t ++ hCtx) :: [] :: [] :: ((t ++ hQ)
        :: dropMargin m (if isWSOnly (i8 ++ q0) then [] else (i8 ++ q0))
        :: ((qs.map (fun l => if isWSOnly l then [] else l)).map (dropMargin m)
            ++ ([] :: (t ++ hAns) :: [] :: [])))) := by
  simp only [List.map_cons, List.map_append, dropMargin_zero,
    dropMargin_of_pre _ _ _ _ ht, List.map_nil]
  rfl

theorem dedentLines_empty_ctx (q q0 : Str) (qs : List Str)
    (hq : splitLines q = q0 :: qs) :
    ∃ t A B,
      dedentLines (splitLines (rawPrompt [] q)) = A ++ ((t ++ hCtx) :: [] :: [] :: B)
      ∧ A ≠ [] ∧ B ≠ [] := by
  have hd := splitLines_rawPrompt [] q [] q0 [] qs rfl hq
  have hN : normalizeLines (splitLines (rawPrompt [] q)) =
      [] :: (i8 ++ hYou) :: (i8 ++ hIns2) :: (i8 ++ hIns3) :: [] :: (i8 ++ hCtx)
        :: [] :: [] :: (i8 ++ hQ)
        :: (if isWSOnly (i8 ++ q0) then [] else (i8 ++ q0))
        :: (qs.map (fun l => if isWSOnly l then [] else l)
            ++ ([] :: (i8 ++ hAns) :: [] :: [])) := by
    rw [hd]
    simp only [normalizeLines, List.map_cons, List.map_append, List.append_nil,
      List.nil_append]
    rw [show isWSOnly ([] : Str) = false from by decide,
        show isWSOnly (i8 ++ hYou) = false from by decide,
        show isWSOnly (i8 ++ hIns2) = false from by decide,
        show isWSOnly (i8 ++ hIns3) = false from by decide,
        show isWSOnly (i8 ++ hCtx) = false from by decide,
        show isWSOnly (i8 ++ hQ) = false from by decide,
        show isWSOnly (i8 ++ hAns) = false from by decide,
        show isWSOnly i8 = true from by decide,
        show isWSOnly s4 = true from by decide]
    simp
  have hpre := margin_rawPrompt_pre_i8 [] q
  rw [hN] at hpre
  obtain ⟨t, ht⟩ := hpre
  unfold dedentLines
  rw [hN, map_dropMargin_shape _ t q0 qs ht]
  exact ⟨t, _, _, rfl, by simp, by simp⟩

theorem ctx_block_infix (A B : List Str) (t : Str) (hA : A ≠ []) (hB : B ≠ []) :
    (hCtx ++ '\n' :: '\n' :: '\n' :: [])
      <:+: joinLines (A ++ ((t ++ hCtx) :: [] :: [] :: B)) := by
  rw [joinLines_append A _ hA (by simp)]
  rw [joinLines_cons _ _ (by simp)]
  rw [joinLines_cons _ _ (by simp)]
  rw [joinLines_cons _ _ hB]
  refine ⟨joinLines A ++ '\n' :: t, joinLines B, ?_⟩
  simp [List.append_assoc]

/-- C1: for every non-blank question, `ask` issues exactly one embedding
call, one vector-search call and one generation call, in that order; the
search consumes the vector returned by the embedding call, and the
generation consumes the prompt assembled from the search result.  No
step is skipped when upstream results are empty: the trace holds the
generation call whatever the match list (the witness runs it with an
empty search result). -/
theorem c1_ask_pipeline {V : Type} (cfg : Config) (P : Providers V) (q : Str)
    (er : EmbedResponse V) (d : EmbedDatum V) (ds : List (EmbedDatum V))
    (res : QueryResponse)
    (hq : pyStrip q ≠ [])
    (he : P.embed cfg.EMBED_MODEL q = .ok er)
    (hd : er.data = d :: ds)
    (hs : P.query d.embedding cfg.TOP_K cfg.NAMESPACE true = .ok res) :
    (ask cfg P q).2 =
      [Event.embedCall cfg.EMBED_MODEL q,
       Event.searchCall d.embedding cfg.TOP_K cfg.NAMESPACE true,
       Event.genCall (str "gpt-4o")
         [(str "user", promptOf (contextText res.«matches») q)] 0] := by
  unfold ask
  rw [he]
  dsimp only
  rw [hd]
  dsimp only
  rw [hs]
  dsimp only
  cases P.chat (str "gpt-4o")
      [(str "user", promptOf (contextText res.«matches») q)] 0 with
  | error m => rfl
  | ok cr =>
    dsimp only
    cases cr.choices with
    | nil => rfl
    | cons c cs2 => rfl

/-- C1 witness: the concrete pipeline on question "hi" with succeeding
providers and an empty search result issues the three calls in order. -/
theorem c1_ask_pipeline_witness :
    (ask cfgDefault okProviders (str "hi")).2 =
      [Event.embedCall (str "text-embedding-3-large") (str "hi"),
       Event.searchCall okVec 20 (str "v1") true,
       Event.genCall (str "gpt-4o")
         [(str "user", promptOf (contextText []) (str "hi"))] 0] :=
  c1_ask_pipeline cfgDefault okProviders (str "hi") ⟨[⟨okVec⟩]⟩ ⟨okVec⟩ [] ⟨[]⟩
    (by decide) rfl rfl rfl

/-- C2: the context block equals the `sep`-join, in search order, of
the `text` metadata value of each match, an absent key contributing the empty
string; the chunk list always has one entry per match, and the concrete
three-match run whose middle match lacks the `text` key yields three
segments around two separators with the middle one empty. -/
theorem c2_context_join :
    (∀ ms : List MatchRec,
      contextText ms
        = List.intercalate sep
            (ms.map (fun m => metaGet m.metadata (str "text") []))
      ∧ (contextChunks ms).length = ms.length)
    ∧ contextText [⟨[(str "text", str "alpha")]⟩, ⟨[(str "id", str "2")]⟩,
        ⟨[(str "text", str "gamma")]⟩]
      = str "alpha\n\n---\n\n\n\n---\n\ngamma" := by
  refine ⟨fun ms => ⟨rfl, by simp [contextChunks]⟩, by decide⟩

/-- C9: context construction maps the matches in their search order, and
the join is non-commutative: swapping two matches with distinct texts
yields distinct context blocks. -/
theorem c9_context_order :
    (∀ ms : List MatchRec,
        contextChunks ms = ms.map (fun m => metaGet m.metadata (str "text") []))
    ∧ contextText [mA, mB] = str "alpha\n\n---\n\nbeta"
    ∧ contextText [mB, mA] = str "beta\n\n---\n\nalpha"
    ∧ contextText [mA, mB] ≠ contextText [mB, mA] :=
  ⟨fun _ => rfl, by decide, by decide, by decide⟩

/-- C6: a blank or whitespace-only submitted question is silently
ignored: no provider call is dispatched and nothing is shown, whether or
not the button was clicked. -/
theorem c6_blank_question_ignored {V : Type} (cfg : Config) (P : Providers V)
    (clicked : Bool) (q : Str) (hq : pyStrip q = []) :
    handleAsk cfg P clicked q = (.noAction, []) := by
  unfold handleAsk
  rw [hq]
  simp

/-- C6 witness: a whitespace-only question with the button clicked
produces no call and no visible result. -/
theorem c6_blank_question_ignored_witness :
    handleAsk cfgDefault okProviders true (str "  \n ") = (.noAction, []) :=
  c6_blank_question_ignored cfgDefault okProviders true (str "  \n ") (by decide)

/-- C4 (counterexample): a TOP_K environment value of "-3" resolves,
through the int coercion of app.py line 16, to the negative integer -3:
the resolved value is not a positive integer. -/
theorem c4_topK_not_positive :
    TOP_K [] [(str "TOP_K", str "-3")] = some (-3 : Int)
    ∧ ¬ (0 : Int) < (-3 : Int) := by
  constructor
  · decide
  · decide

/-- C4 (amended): every configuration field follows the fallback chain
secret store, then environment, then named default (indexName
"aquestia", namespace "v1", embedModel "text-embedding-3-large", topK
20, no default for the two keys); the resolved TOP_K string is coerced
by the Python int parse, with no positivity check. -/
theorem c4_config_resolution (sec env : List (Str × Str)) (v : Str) :
    (storeGet sec (str "PINECONE_API_KEY") = some v →
        PINECONE_API_KEY sec env = some v)
    ∧ (storeGet sec (str "PINECONE_API_KEY") = none →
        PINECONE_API_KEY sec env = storeGet env (str "PINECONE_API_KEY"))
    ∧ (storeGet sec (str "OPENAI_API_KEY") = some v →
        OPENAI_API_KEY sec env = some v)
    ∧ (storeGet sec (str "OPENAI_API_KEY") = none →
        OPENAI_API_KEY sec env = storeGet env (str "OPENAI_API_KEY"))
    ∧ (storeGet sec (str "INDEX_NAME") = some v → INDEX_NAME sec env = v)
    ∧ (storeGet sec (str "INDEX_NAME") = none →
        storeGet env (str "INDEX_NAME") = some v → INDEX_NAME sec env = v)
    ∧ (storeGet sec (str "INDEX_NAME") = none →
        storeGet env (str "INDEX_NAME") = none →
        INDEX_NAME sec env = str "aquestia")
    ∧ (storeGet sec (str "NAMESPACE") = some v → NAMESPACE sec env = v)
    ∧ (storeGet sec (str "NAMESPACE") = none →
        storeGet env (str "NAMESPACE") = some v → NAMESPACE sec env = v)
    ∧ (storeGet sec (str "NAMESPACE") = none →
        storeGet env (str "NAMESPACE") = none → NAMESPACE sec env = str "v1")
    ∧ (storeGet sec (str "EMBED_MODEL") = some v → EMBED_MODEL sec env = v)
    ∧ (storeGet sec (str "EMBED_MODEL") = none →
        storeGet env (str "EMBED_MODEL") = some v → EMBED_MODEL sec env = v)
    ∧ (storeGet sec (str "EMBED_MODEL") = none →
        storeGet env (str "EMBED_MODEL") = none →
        EMBED_MODEL sec env = str "text-embedding-3-large")
    ∧ (storeGet sec (str "TOP_K") = some v → TOP_K sec env = pyInt v)
    ∧ (storeGet sec (str "TOP_K") = none →
        storeGet env (str "TOP_K") = some v → TOP_K sec env = pyInt v)
    ∧ (storeGet sec (str "TOP_K") = none →
        storeGet env (str "TOP_K") = none → TOP_K sec env = some 20) := by
  refine ⟨fun h => ?_, fun h => ?_, fun h => ?_, fun h => ?_, fun h => ?_,
    fun h h2 => ?_, fun h h2 => ?_, fun h => ?_, fun h h2 => ?_, fun h h2 => ?_,
    fun h => ?_, fun h h2 => ?_, fun h h2 => ?_, fun h => ?_, fun h h2 => ?_,
    fun h h2 => ?_⟩
  all_goals
    simp only [PINECONE_API_KEY, OPENAI_API_KEY, INDEX_NAME, NAMESPACE,
      EMBED_MODEL, TOP_K, resolveKey, resolveKeyD, resolveTOP_K]
  all_goals first
  | (rw [h]; try rw [h2])
  | (rw [h])

/-- C4 witness: concrete resolutions along each leg of the chain. -/
theorem c4_config_resolution_witness :
    TOP_K [(str "TOP_K", str "7")] [] = some (7 : Int)
    ∧ INDEX_NAME [] [] = str "aquestia"
    ∧ NAMESPACE [] [] = str "v1"
    ∧ EMBED_MODEL [] [] = str "text-embedding-3-large"
    ∧ TOP_K [] [] = some (20 : Int) := by
  have h1 := c4_config_resolution [(str "TOP_K", str "7")] [] (str "7")
  have h2 := c4_config_resolution [] [] []
  refine ⟨?_, ?_, ?_, ?_, ?_⟩
  · exact (h1.2.2.2.2.2.2.2.2.2.2.2.2.2.1 rfl).trans (by decide)
  · exact h2.2.2.2.2.2.2.1 rfl rfl
  · exact h2.2.2.2.2.2.2.2.2.2.1 rfl rfl
  · exact h2.2.2.2.2.2.2.2.2.2.2.2.2.1 rfl rfl
  · exact h2.2.2.2.2.2.2.2.2.2.2.2.2.2.2.2 rfl rfl

/-- C5: when either API key is absent (or empty) once the configuration
values have resolved, startup halts with the fixed user-visible error
message of line 19 and no network client is constructed. -/
theorem c5_missing_keys_halt (sec env : List (Str × Str)) (k : Int)
    (htop : resolveTOP_K sec env = some k)
    (hkeys : pyTruthy (PINECONE_API_KEY sec env) = false
           ∨ pyTruthy (OPENAI_API_KEY sec env) = false) :
    startup sec env = .halted missingKeysMsg
    ∧ clientsConstructed (startup sec env) = [] := by
  have h : startup sec env = .halted missingKeysMsg := by
    unfold startup
    rw [htop]
    rcases hkeys with h | h <;> rw [h] <;> simp
  exact ⟨h, by rw [h]; rfl⟩

/-- C5 witness: with both stores empty, resolution completes (TOP_K
defaults to 20), both keys are absent, and startup halts with the error
message before any client exists. -/
theorem c5_missing_keys_halt_witness :
    startup [] [] = .halted missingKeysMsg
    ∧ clientsConstructed (startup [] []) = [] :=
  c5_missing_keys_halt [] [] 20 rfl (Or.inl rfl)

/-- C7: an error raised by any provider call inside `ask` is caught at
the single submit handler and turned into the error banner; the session
keeps accepting further questions (one result per question, no
termination). -/
theorem c7_provider_error_recovered {V : Type} (cfg : Config) (P : Providers V)
    (q : Str) (e : PyErr) (hq : pyStrip q ≠ [])
    (he : (ask cfg P q).1 = .error e) :
    (handleAsk cfg P true q).1
      = .errorShown (str "❌ An error occurred: " ++ renderErr e)
    ∧ ∀ qs : List Str, (uiSession cfg P qs).length = qs.length := by
  constructor
  · unfold handleAsk
    have hne : (pyStrip q).isEmpty = false := by
      cases hpq : pyStrip q with
      | nil => exact absurd hpq hq
      | cons a l => rfl
    rw [hne]
    rcases hask : ask cfg P q with ⟨r, tr⟩
    rw [hask] at he
    dsimp only at he
    rw [he]
    rfl
  · intro qs
    simp [uiSession]

/-- C7 witness: a failing embedding endpoint yields the banner and the
session length law holds on a concrete two-question session. -/
theorem c7_provider_error_recovered_witness :
    (handleAsk cfgDefault errProviders true (str "hi")).1
      = .errorShown (str "❌ An error occurred: "
          ++ renderErr (.provider (str "quota exceeded"))) :=
  (c7_provider_error_recovered cfgDefault errProviders (str "hi")
    (.provider (str "quota exceeded")) (by decide) rfl).1

/-- C3 (counterexample): for the two-line question whose second line is
indented, the prompt sent to the generation call does not contain the
question verbatim: `textwrap.dedent` runs after interpolation and strips
the leading spaces of the question line. -/
theorem c3_question_not_verbatim :
    (ask cfgDefault okProviders (str "a\n  b")).2 =
      [Event.embedCall (str "text-embedding-3-large") (str "a\n  b"),
       Event.searchCall okVec 20 (str "v1") true,
       Event.genCall (str "gpt-4o")
         [(str "user", promptOf (contextText []) (str "a\n  b"))] 0]
    ∧ ¬ (str "a\n  b") <:+: promptOf (contextText []) (str "a\n  b") := by
  constructor
  · rfl
  · decide

/-- C3 (amended): the embedding call receives the question text
unmodified, and for every non-blank question without a newline the
prompt contains the question verbatim; a multi-line question with an
indented line can lose its leading spaces to the final dedent. -/
theorem c3_question_handling {V : Type} (cfg : Config) (P : Providers V)
    (q : Str) (hq1 : pyStrip q ≠ []) (hq2 : '\n' ∉ q) :
    (∃ tr, (ask cfg P q).2 = Event.embedCall cfg.EMBED_MODEL q :: tr)
    ∧ ∀ ctx : Str, q <:+: promptOf ctx q :=
  ⟨ask_first_event cfg P q, fun ctx => question_infix_promptOf ctx q hq1 hq2⟩

/-- C3 witness: a concrete single-line question appears verbatim in the
prompt assembled over a concrete context. -/
theorem c3_question_handling_witness :
    (str "What is the max pressure?")
      <:+: promptOf (str "ctx block") (str "What is the max pressure?") :=
  (c3_question_handling cfgDefault okProviders (str "What is the max pressure?")
    (by decide) (by decide)).2 (str "ctx block")

/-- C8: when the vector search returns zero matches the context block is
the empty string, the generation call still happens, and its prompt
keeps the fixed template structure — the instruction lines and the three
section headers — with an empty Context body (the header is followed by
two empty lines: its empty body and the template blank). -/
theorem c8_empty_search_prompt {V : Type} (cfg : Config) (P : Providers V)
    (q : Str) (er : EmbedResponse V) (d : EmbedDatum V) (ds : List (EmbedDatum V))
    (he : P.embed cfg.EMBED_MODEL q = .ok er)
    (hd : er.data = d :: ds)
    (hs : P.query d.embedding cfg.TOP_K cfg.NAMESPACE true = .ok ⟨[]⟩) :
    contextText [] = []
    ∧ (ask cfg P q).2 =
        [Event.embedCall cfg.EMBED_MODEL q,
         Event.searchCall d.embedding cfg.TOP_K cfg.NAMESPACE true,
         Event.genCall (str "gpt-4o") [(str "user", promptOf [] q)] 0]
    ∧ str "You are Pipe\u2011Spec Assistant." <:+: promptOf [] q
    ∧ str "Answer the user\u0027s question **only** with information in the context."
        <:+: promptOf [] q
    ∧ str "Try to give the best answer possible. If you really don\u0027t know say you don\u0027t know, but still try to provide some value."
        <:+: promptOf [] q
    ∧ str "### Context\n\n\n" <:+: promptOf [] q
    ∧ str "### Question" <:+: promptOf [] q
    ∧ str "### Answer" <:+: promptOf [] q := by
  obtain ⟨hY, hI2, hI3, hC, hQm, hA⟩ := mem_raw_tmpl_lines [] q
  refine ⟨rfl, ?_, ?_, ?_, ?_, ?_, ?_, ?_⟩
  · unfold ask
    rw [he]
    dsimp only
    rw [hd]
    dsimp only
    rw [hs]
    dsimp only
    cases P.chat (str "gpt-4o")
        [(str "user", promptOf (contextText (QueryResponse.mk []).«matches») q)] 0 with
    | error m => rfl
    | ok cr =>
      dsimp only
      cases cr.choices with
      | nil => rfl
      | cons c cs2 => rfl
  · exact body_infix_promptOf [] q hYou hY (by decide)
  · exact body_infix_promptOf [] q hIns2 hI2 (by decide)
  · exact body_infix_promptOf [] q hIns3 hI3 (by decide)
  · rw [show str "### Context\n\n\n" = hCtx ++ '\n' :: '\n' :: '\n' :: [] from by decide]
    obtain ⟨q0, qs, hq2⟩ := exists_splitLines_cons q
    obtain ⟨t, A, B, hshape, hAne, hBne⟩ := dedentLines_empty_ctx q q0 qs hq2
    unfold promptOf dedent
    rw [hshape]
    exact ctx_block_infix A B t hAne hBne
  · exact body_infix_promptOf [] q hQ hQm (by decide)
  · exact body_infix_promptOf [] q hAns hA (by decide)

/-- C8 witness: the concrete empty-search run on question "hi". -/
theorem c8_empty_search_prompt_witness :
    contextText [] = []
    ∧ (ask cfgDefault okProviders (str "hi")).2 =
        [Event.embedCall (str "text-embedding-3-large") (str "hi"),
         Event.searchCall okVec 20 (str "v1") true,
         Event.genCall (str "gpt-4o") [(str "user", promptOf [] (str "hi"))] 0]
    ∧ str "You are Pipe\u2011Spec Assistant." <:+: promptOf [] (str "hi")
    ∧ str "Answer the user\u0027s question **only** with information in the context."
        <:+: promptOf [] (str "hi")
    ∧ str "Try to give the best answer possible. If you really don\u0027t know say you don\u0027t know, but still try to provide some value."
        <:+: promptOf [] (str "hi")
    ∧ str "### Context\n\n\n" <:+: promptOf [] (str "hi")
    ∧ str "### Question" <:+: promptOf [] (str "hi")
    ∧ str "### Answer" <:+: promptOf [] (str "hi") :=
  c8_empty_search_prompt cfgDefault okProviders (str "hi")
    ⟨[⟨okVec⟩]⟩ ⟨okVec⟩ [] rfl rfl rfl

/-- C10 (counterexample): the claim quantifies over any non-empty
column-zero line of the context; the single-line context "x" is such a
line, yet the template lines do not keep their eight-space indentation —
the whole prompt is dedented because that line is interpolated after the
eight spaces of the template. -/
theorem c10_first_line_dedents :
    lineAtColZero (str "x") = true
    ∧ (splitLines (str "x")).any lineAtColZero = true
    ∧ ¬ (str "        You are Pipe\u2011Spec Assistant.")
        <:+: promptOf (str "x") (str "ab")
    ∧ promptOf (str "x") (str "ab")
      = str "\nYou are Pipe\u2011Spec Assistant.\nAnswer the user\u0027s question **only** with information in the context.\nTry to give the best answer possible. If you really don\u0027t know say you don\u0027t know, but still try to provide some value.\n\n### Context\nx\n\n### Question\nab\n\n### Answer\n" := by
  refine ⟨by decide, by decide, by decide, by decide⟩

/-- C10 (amended): dedent runs after interpolation, so the final
whitespace depends on the inserted text: whenever the context or the
question holds, after its first line, a non-blank line starting at
column zero, the computed margin is empty and every fixed template line
keeps its eight-space source indentation; and for the two-line question
whose second line is indented, the dedent strips those leading spaces,
so the question is not verbatim in the prompt. -/
theorem c10_dedent_after_interpolation :
    (∀ ctx q l : Str,
        l ∈ (splitLines ctx).tail ++ (splitLines q).tail →
        lineAtColZero l = true →
        marginOf (normalizeLines (splitLines (rawPrompt ctx q))) = []
        ∧ str "        You are Pipe\u2011Spec Assistant." <:+: promptOf ctx q
        ∧ str "        ### Context" <:+: promptOf ctx q
        ∧ str "        ### Question" <:+: promptOf ctx q
        ∧ str "        ### Answer" <:+: promptOf ctx q)
    ∧ (¬ (str "a\n  b") <:+: promptOf [] (str "a\n  b")
       ∧ (str "      a\nb") <:+: promptOf [] (str "a\n  b")) := by
  constructor
  · intro ctx q l hl hcz
    have hm := margin_rawPrompt_empty ctx q l (List.mem_append.mp hl) hcz
    obtain ⟨hY, hI2, hI3, hC, hQm, hA⟩ := mem_raw_tmpl_lines ctx q
    refine ⟨hm, ?_, ?_, ?_, ?_⟩
    · rw [show str "        You are Pipe\u2011Spec Assistant." = i8 ++ hYou from by decide]
      exact template_line_retained ctx q _ hm hY (by decide)
    · rw [show str "        ### Context" = i8 ++ hCtx from by decide]
      exact template_line_retained ctx q _ hm hC (by decide)
    · rw [show str "        ### Question" = i8 ++ hQ from by decide]
      exact template_line_retained ctx q _ hm hQm (by decide)
    · rw [show str "        ### Answer" = i8 ++ hAns from by decide]
      exact template_line_retained ctx q _ hm hA (by decide)
  · exact ⟨by decide, by decide⟩

/-- C10 witness: a two-line context whose second line starts at column
zero keeps the full eight-space template indentation. -/
theorem c10_dedent_after_interpolation_witness :
    marginOf (normalizeLines (splitLines
      (rawPrompt (str "multi\nline ctx") (str "q1")))) = []
    ∧ str "        You are Pipe\u2011Spec Assistant."
        <:+: promptOf (str "multi\nline ctx") (str "q1")
    ∧ str "        ### Context" <:+: promptOf (str "multi\nline ctx") (str "q1")
    ∧ str "        ### Question" <:+: promptOf (str "multi\nline ctx") (str "q1")
    ∧ str "        ### Answer" <:+: promptOf (str "multi\nline ctx") (str "q1") :=
  c10_dedent_after_interpolation.1 (str "multi\nline ctx") (str "q1")
    (str "line ctx") (by decide) (by decide)
